import Mathlib

/-!
Shallow embedding of the laboratory-measurement harmonization pipeline
(`lab_preprocessing.py` and the helpers it uses from `utils.py`).

Tables are modelled as lists of records; a pandas cell of the mixed
`object` dtype `value` column is modelled by the `Value` type
(string / numeric / NaN).  Machine floats are modelled by `ℚ`
(the pipeline's arithmetic is plain decimal arithmetic); library
routines (`pd.to_numeric`, Python `float`, unicode NFKD folding)
are modelled by explicit executable Lean functions noted below.
-/

namespace Collaterals

/-- A cell of the pandas `value` column: a text value, a numeric value,
or a missing value (`NaN`). -/
inductive Value where
  | str (s : String)
  | num (q : ℚ)
  | null
deriving DecidableEq, Repr

/-- `true` iff the cell holds a numeric value. -/
def valueIsNumB : Value → Bool
  | .num _ => true
  | _ => false

/-- Boolean prefix test on character lists. -/
def isPrefixOfB : List Char → List Char → Bool
  | [], _ => true
  | _ :: _, [] => false
  | a :: as, b :: bs => a == b && isPrefixOfB as bs

/-- Boolean substring test on character lists. -/
def containsSubAux (pat : List Char) : List Char → Bool
  | [] => pat.isEmpty
  | c :: rest => isPrefixOfB pat (c :: rest) || containsSubAux pat rest

/-- `containsSub s pat` models `pat in s` / `Series.str.contains(pat)`
(the patterns used by the source contain no regex metacharacters). -/
def containsSub (s pat : String) : Bool :=
  containsSubAux pat.toList s.toList

/-- ASCII upper-casing across a character list (model of Python/pandas
case folding for the ASCII patterns used by the source). -/
def upperChars (l : List Char) : List Char :=
  l.map Char.toUpper

/-- Case-insensitive substring test, modelling
`Series.str.contains(pat, case=False)`. -/
def containsCI (s pat : String) : Bool :=
  containsSubAux (upperChars pat.toList) (upperChars s.toList)

/-- Split a character list on a separator character, modelling
Python `str.split(sep)` for a one-character separator. -/
def splitOnChar (sep : Char) : List Char → List (List Char)
  | [] => [[]]
  | x :: xs =>
    let r := splitOnChar sep xs
    if x == sep then [] :: r
    else
      match r with
      | [] => [[x]]
      | h :: t => (x :: h) :: t

/-- Is the character whitespace (the characters Python `float` and
`pd.to_numeric` tolerate around a numeric literal)? -/
def isSpaceCharB (c : Char) : Bool :=
  c == ' ' || c == '\t' || c == '\n' || c == '\r'

/-- Strip surrounding whitespace from a character list. -/
def trimChars (l : List Char) : List Char :=
  ((l.dropWhile isSpaceCharB).reverse.dropWhile isSpaceCharB).reverse

/-- Drop a prefix, returning the remainder when it matches. -/
def stripPrefixB (pre : List Char) (l : List Char) : Option (List Char) :=
  match pre, l with
  | [], l => some l
  | _ :: _, [] => none
  | a :: as, b :: bs => if a == b then stripPrefixB as bs else none

/-- Fuel-driven worker for `splitOnChars` (structural on the fuel so
that concrete evaluations reduce). -/
def splitGo (sep : List Char) : Nat → List Char → List Char → List (List Char)
  | 0, l, acc => [acc.reverse ++ l]
  | Nat.succ n, l, acc =>
    match l with
    | [] => [acc.reverse]
    | c :: rest =>
      match stripPrefixB sep (c :: rest) with
      | some rem => acc.reverse :: splitGo sep n rem []
      | none => splitGo sep n rest (c :: acc)

/-- Split a character list on a nonempty separator list, modelling
Python `str.split(sep)` (non-overlapping, left to right). -/
def splitOnChars (sep : List Char) (l : List Char) : List (List Char) :=
  splitGo sep (l.length + 1) l []

/-- Numeric value of a decimal digit. -/
def digitVal (c : Char) : Option Nat :=
  if c.isDigit then some (c.toNat - 48) else none

/-- Parse a nonnegative integer from a digit list (empty list parses to 0;
callers enforce the at-least-one-digit requirement). -/
def parseNatDigits (cs : List Char) : Option Nat :=
  cs.foldlM (fun acc c => (digitVal c).map (fun d => acc * 10 + d)) 0

/-- Model of `pd.to_numeric(·, errors='coerce')` / Python `float(·)` on the
plain decimal literals occurring in this data set: optional surrounding
whitespace, optional sign, digits with at most one decimal point
(exponent notation is not exercised by the pipeline's inputs). -/
def parseNumeric (s : String) : Option ℚ :=
  let cs := trimChars s.toList
  let signAndRest : Bool × List Char :=
    match cs with
    | '-' :: rest => (true, rest)
    | '+' :: rest => (false, rest)
    | _ => (false, cs)
  let withSign (b : Bool) (q : ℚ) : ℚ := if b then -q else q
  match splitOnChar '.' signAndRest.2 with
  | [intp] =>
    if intp.isEmpty then none
    else (parseNatDigits intp).map (fun n => withSign signAndRest.1 (n : ℚ))
  | [intp, fracp] =>
    if intp.isEmpty && fracp.isEmpty then none
    else
      match parseNatDigits intp, parseNatDigits fracp with
      | some i, some f =>
        some (withSign signAndRest.1 ((i : ℚ) + (f : ℚ) / (10 ^ fracp.length)))
      | _, _ => none
  | _ => none

/-- Model of `remove_french_accents_and_cedillas_from_dataframe`
(`utils.py`): unicode NFKD decomposition followed by ASCII re-encoding
with `errors='ignore'`, spelled out for the French-accented characters
occurring in the reference vocabularies; other non-ASCII characters are
dropped, ASCII characters are kept unchanged. -/
def normalizeChar (c : Char) : List Char :=
  if c.toNat < 128 then [c]
  else if c ∈ ['é', 'è', 'ê', 'ë'] then ['e']
  else if c ∈ ['à', 'â', 'ä'] then ['a']
  else if c ∈ ['î', 'ï'] then ['i']
  else if c ∈ ['ô', 'ö'] then ['o']
  else if c ∈ ['ù', 'û', 'ü'] then ['u']
  else if c == 'ç' then ['c']
  else if c ∈ ['É', 'È', 'Ê', 'Ë'] then ['E']
  else if c == 'À' then ['A']
  else if c == 'Ç' then ['C']
  else []

/-- Apply `normalizeChar` across a string. -/
def normalizeText (s : String) : String :=
  (s.toList.foldr (fun c acc => normalizeChar c ++ acc) []).asString

/-- Model of `Series.str.replace("'", "")`: remove apostrophes. -/
def removeApostrophes (s : String) : String :=
  (s.toList.filter (fun c => c.toNat != 39)).asString

/-- `blood_material_equivalents` (`lab_preprocessing.py`). -/
def blood_material_equivalents : List String :=
  ["sga", "sgv", "sgvm", "sgc", "sgv ponction", "sgv cathéter", "sga cathéter",
   "cathéter artériel", "cathéter veineux", "plasma", "Sang", "sg cordon",
   "sgv catheter", "sga catheter", "catheter arteriel", "catheter veineux"]

/-- `unit_of_measure_equivalents` (`lab_preprocessing.py`). -/
def unit_of_measure_equivalents : List (List String) :=
  [["UI/ml", "U/ml"]]

/-- `non_numerical_values_to_remove` (`lab_preprocessing.py`). -/
def non_numerical_values_to_remove : List String :=
  ["ERROR", "nan", "SANS RES.", "Hémolysé", "Hemolyse", "sans resultat",
   "voir POCT", "NON REALISE", "NON INTERPRÉT.", "NON INTERPRET.", "COA",
   "TAM", "****.**", "-100000.0", "----"]

/-- `identification_columns` (`lab_preprocessing.py`). -/
def identification_columns : List String :=
  ["case_admission_id", "sample_date"]

/-- One row of the reorganised long-format lab table.  The columns the
pipeline never reads (`analyse_label`, `lower_limit`, `upper_limit`) are
omitted; `value` is the mixed-type value cell. -/
structure LabRow where
  case_admission_id : String
  sample_date : String
  dosage_label : String
  material_label : String
  unit_of_measure : String
  value : Value
deriving DecidableEq, Repr

/-- The fixed censored-value rule table of `correct_non_numerical_values`:
(dosage-label set, exact value literal, numeric replacement), with the
replacement arithmetic transcribed from the source. -/
def censoredValueRules : List (List String × String × ℚ) :=
  [(["glucose"], ">83.2", 83.2 + 0.05 * 83.2),
   (["proBNP"], ">70000", 70000 + 0.05 * 70000),
   (["Activité anti-Xa (DOAC)", "Activite anti-Xa (DOAC)"], ">474", 474 + 0.05 * 474),
   (["Activité anti-Xa (DOAC)", "Activite anti-Xa (DOAC)"], ">445", 445 + 0.05 * 445),
   (["PTT"], ">160.0", 160.0 + 0.05 * 160.0),
   (["INR"], ">11.00", 11.00 + 0.05 * 11.00),
   (["fibrinogène", "fibrinogene"], ">11.00", 11.00 + 0.05 * 11.00),
   (["fibrinogène", "fibrinogene"], ">11.0", 11.0 + 0.05 * 11.0),
   (["activité anti-Xa (HBPM), thérapeutique, 2x /jour",
     "activite anti-Xa (HBPM), therapeutique, 2x /jour"], ">1.60", 1.60 + 0.05 * 1.60),
   (["activité anti-Xa (HNF)", "activite anti-Xa (HNF)"], ">1.31", 1.31 + 0.05 * 1.31),
   (["activité anti-Xa (HNF)", "activite anti-Xa (HNF)"], ">1.20", 1.20 + 0.05 * 1.20),
   (["sodium"], ">180", 180 + 0.05 * 180),
   (["protéine C-réactive", "proteine C-reactive"], ">200.00", 200.00 + 0.05 * 200.00),
   (["ALAT"], "<5", 5 - 0.05 * 5),
   (["bilirubine totale"], "<3", 3 - 0.05 * 3),
   (["Activité anti-Xa (DOAC)", "Activite anti-Xa (DOAC)"], "<10", 10 - 0.05 * 10),
   (["INR"], "<1.00", 1.00 - 0.05 * 1.00),
   (["fibrinogène", "fibrinogene"], "<0.7", 0.7 - 0.05 * 0.7),
   (["fibrinogène", "fibrinogene"], "<0.5", 0.5 - 0.05 * 0.5),
   (["fibrinogène", "fibrinogene"], "<0.4", 0.4 - 0.05 * 0.4),
   (["protéine C-réactive", "proteine C-reactive"], "<0.30", 0.30 - 0.05 * 0.30),
   (["cholestérol HDL", "cholesterol HDL"], "<0.08", 0.08 - 0.05 * 0.08),
   (["créatinine", "creatinine"], "<18", 18 - 0.05 * 18)]

/-- Does a censored-value rule apply to a (label, stripped value) pair? -/
def ruleMatchesB (label s : String) (rule : List String × String × ℚ) : Bool :=
  decide (label ∈ rule.1) && (s == rule.2.1)

/-- Per-cell effect of `correct_non_numerical_values`: strip apostrophes
(`Series.str.replace` turns the non-string cells into NaN), then apply the
first matching rule of the fixed table; the sequential `.loc` rewrites of
the source are equivalent to a first-match lookup because a rewritten cell
is numeric and no longer equals any literal. -/
def correctValue (label : String) (v : Value) : Value :=
  match v with
  | .str s =>
    let s' := removeApostrophes s
    match censoredValueRules.find? (ruleMatchesB label s') with
    | some rule => .num rule.2.2
    | none => .str s'
  | _ => .null

/-- `correct_non_numerical_values` over a table. -/
def correct_non_numerical_values (rows : List LabRow) : List LabRow :=
  rows.map (fun r => { r with value := correctValue r.dosage_label r.value })

/-- The fatal errors `preprocess_labs` can raise (`raise ValueError(...)`). -/
inductive PErr where
  | materialContradiction (label : String) (materials : List String)
  | multipleUnits (label : String) (units : List String)
  | remainingNonNumerical (values : List String)
deriving DecidableEq, Repr

/-- Normalize every text field of a row (`remove_french_accents_...` is
applied to every object-dtype column of the frame). -/
def normalizeRow (r : LabRow) : LabRow :=
  { case_admission_id := normalizeText r.case_admission_id
    sample_date := normalizeText r.sample_date
    dosage_label := normalizeText r.dosage_label
    material_label := normalizeText r.material_label
    unit_of_measure := normalizeText r.unit_of_measure
    value := match r.value with
             | .str s => .str (normalizeText s)
             | v => v }

/-- Rewrite every non-canonical member of each equivalence group to the
group's first (canonical) member, group by group, in the `dosage_label`
column (`equivalent_labels.csv` loop). -/
def applyLabelEquivalence (groups : List (List String)) (rows : List LabRow) : List LabRow :=
  groups.foldl (fun rs group =>
    match group with
    | [] => rs
    | canonical :: synonyms =>
      rs.map (fun r => if decide (r.dosage_label ∈ synonyms)
                       then { r with dosage_label := canonical } else r)) rows

/-- Label phase: equivalence rewrite, accent normalization, restriction to
the caller's `selected_variables`; returns (kept rows, included labels,
dropped labels) in the source's computation order. -/
def labelPhase (equivalentLabels : List (List String)) (selected_variables : List String)
    (rows : List LabRow) : List LabRow × List String × List String :=
  let r1 := applyLabelEquivalence equivalentLabels rows
  let r2 := r1.map normalizeRow
  let dropped := ((r2.filter (fun r => !(decide (r.dosage_label ∈ selected_variables)))).map
    (fun r => r.dosage_label)).dedup
  let kept := r2.filter (fun r => decide (r.dosage_label ∈ selected_variables))
  let included := (kept.map (fun r => r.dosage_label)).dedup
  (kept, included, dropped)

/-- Merge the blood-material synonyms into the coarse category
`any_blood`. -/
def mergeBloodMaterials (rows : List LabRow) : List LabRow :=
  rows.map (fun r => if decide (r.material_label ∈ blood_material_equivalents)
                     then { r with material_label := "any_blood" } else r)

/-- The blood-gas drop for a family substring `lbl`: remove the rows
whose label contains `lbl` but whose material is not `sga`. -/
def bgFilter (lbl : String) (rows : List LabRow) : List LabRow :=
  rows.filter (fun r =>
    !(containsSub r.dosage_label lbl && !(r.material_label == "sga")))

/-- The distinct materials remaining for the rows whose label contains
`lbl`. -/
def bgMaterials (lbl : String) (rows : List LabRow) : List String :=
  ((rows.filter (fun r => containsSub r.dosage_label lbl)).map
    (fun r => r.material_label)).dedup

/-- One iteration of the blood-gas loop for a family substring `lbl`:
drop the rows whose label contains `lbl` but whose material is not `sga`,
then raise the contradiction error if the materials remaining for that
family contain `sga` together with another category. -/
def bloodGasStep (lbl : String) (rows : List LabRow) : Except PErr (List LabRow) :=
  let rows1 := bgFilter lbl rows
  let materials := bgMaterials lbl rows1
  if decide ("sga" ∈ materials) && decide (1 < materials.length) then
    .error (.materialContradiction lbl materials)
  else
    .ok rows1

/-- The blood-gas loop over `['pO2', 'pCO2', 'pH']`. -/
def bloodGasLoop (rows : List LabRow) : Except PErr (List LabRow) :=
  (["pO2", "pCO2", "pH"]).foldlM (fun rs lbl => bloodGasStep lbl rs) rows

/-- Material phase: synonym merge, restriction to `material_to_include`
(recording the excluded materials), blood-gas filtering and consistency
check. -/
def materialPhase (material_to_include : List String) (rows : List LabRow) :
    Except PErr (List LabRow × List String) :=
  let merged := mergeBloodMaterials rows
  let excluded := ((merged.map (fun r => r.material_label)).dedup).filter
    (fun m => !(decide (m ∈ material_to_include)))
  let kept := merged.filter (fun r => decide (r.material_label ∈ material_to_include))
  (bloodGasLoop kept).map (fun r5 => (r5, excluded))

/-- Merge equivalent unit spellings to the canonical spelling. -/
def mergeUnitEquivalents (rows : List LabRow) : List LabRow :=
  unit_of_measure_equivalents.foldl (fun rs group =>
    match group with
    | [] => rs
    | canonical :: synonyms =>
      rs.map (fun r => if decide (r.unit_of_measure ∈ synonyms)
                       then { r with unit_of_measure := canonical } else r)) rows

/-- Per-label allowed-unit filtering (`dosage_units.csv` loop): for each
label of the table, drop its rows whose unit is not in the allowed set. -/
def filterDosageUnits (dosageUnits : List (String × List String)) (rows : List LabRow) :
    List LabRow :=
  dosageUnits.foldl (fun rs lu =>
    rs.filter (fun r => !((r.dosage_label == lu.1) && !(decide (r.unit_of_measure ∈ lu.2)))))
    rows

/-- The distinct units of measure among a label's rows, in order of
appearance (pandas `unique()`). -/
def distinctUnitsFor (rows : List LabRow) (lbl : String) : List String :=
  ((rows.filter (fun r => r.dosage_label == lbl)).map (fun r => r.unit_of_measure)).dedup

/-- The single-unit-per-label assertion: scan the labels in order of
appearance and fail on the first one with more than one distinct unit. -/
def checkUnits (rows : List LabRow) : Except PErr Unit :=
  match ((rows.map (fun r => r.dosage_label)).dedup).find?
      (fun l => decide (1 < (distinctUnitsFor rows l).length)) with
  | some l => .error (.multipleUnits l (distinctUnitsFor rows l))
  | none => .ok ()

/-- Is the cell a literal member of `non_numerical_values_to_remove`
(pandas `isin`: only string cells can match the string tokens)? -/
def isRemovedToken : Value → Bool
  | .str s => decide (s ∈ non_numerical_values_to_remove)
  | _ => false

/-- Coerce a cell with `pd.to_numeric(errors='coerce')`. -/
def coerceRow (r : LabRow) : LabRow :=
  { r with value := match r.value with
                    | .str s => match parseNumeric s with
                                | some q => .num q
                                | none => .null
                    | v => v }

/-- The distinct text values that survive censored-value correction,
exclusion-token filtering and the NaN drop but do not parse to a number
(the values the fatal error enumerates). -/
def badValuesOf (rows : List LabRow) : List String :=
  (((correct_non_numerical_values rows).filter (fun r => !isRemovedToken r.value)).filter
      (fun r => !(r.value == .null))).filterMap
    (fun r => match r.value with
              | .str s => if (parseNumeric s).isNone then some s else none
              | _ => none) |>.dedup

/-- Value phase: censored-value correction, exclusion-token filtering,
NaN drop, fatal check for remaining non-numeric text, numeric coercion. -/
def valueStage (rows : List LabRow) : Except PErr (List LabRow) :=
  let corrected := correct_non_numerical_values rows
  let tokenFiltered := corrected.filter (fun r => !isRemovedToken r.value)
  let nonNull := tokenFiltered.filter (fun r => !(r.value == .null))
  if badValuesOf rows = [] then
    .ok (nonNull.map coerceRow)
  else
    .error (.remainingNonNumerical (badValuesOf rows))

/-- Is the cell a negative number? (`value < 0` is false for NaN.) -/
def valueNegB : Value → Bool
  | .num q => decide (q < 0)
  | _ => false

/-- `.loc[cond, 'value'] = np.NAN`: null a row's value when the
condition holds. -/
def nullIf (cond : LabRow → Bool) (r : LabRow) : LabRow :=
  if cond r then { r with value := .null } else r

/-- Negative-value correction: null negative hemoglobin and glucose
values, then drop the NaN rows. -/
def negativeStage (rows : List LabRow) : List LabRow :=
  let r1 := rows.map (nullIf (fun r =>
    decide (r.dosage_label ∈ ["hémoglobine", "hemoglobine"]) && valueNegB r.value))
  let r2 := r1.map (nullIf (fun r => (r.dosage_label == "glucose") && valueNegB r.value))
  r2.filter (fun r => !(r.value == .null))

/-- First configured range for a label (`possible_value_ranges` holds one
row per variable; the source takes `values[0]`). -/
def lookupRange (ranges : List (String × ℚ × ℚ)) (lbl : String) : Option (ℚ × ℚ) :=
  (ranges.find? (fun p => p.1 == lbl)).map (fun p => p.2)

/-- `Series.between(min, max)` (inclusive on both ends; false for NaN). -/
def betweenB (v : Value) (mn mx : ℚ) : Bool :=
  match v with
  | .num q => decide (mn ≤ q) && decide (q ≤ mx)
  | _ => false

/-- Null the value of a row falling outside its label's configured
plausible range. -/
def rangeNullRow (ranges : List (String × ℚ × ℚ)) (r : LabRow) : LabRow :=
  match lookupRange ranges r.dosage_label with
  | some mm => if betweenB r.value mm.1 mm.2 then r else { r with value := .null }
  | none => r

/-- Range phase: null out-of-range values, count the NaN cells
(`n_observations_out_ouf_range`), then drop the NaN rows. -/
def rangeStage (ranges : List (String × ℚ × ℚ)) (rows : List LabRow) : List LabRow × Nat :=
  let nulled := rows.map (rangeNullRow ranges)
  (nulled.filter (fun r => !(r.value == .null)), nulled.countP (fun r => r.value == .null))

/-- Insert into a sorted list of rationals. -/
def insertSorted (q : ℚ) : List ℚ → List ℚ
  | [] => [q]
  | a :: as => if q ≤ a then q :: a :: as else a :: insertSorted q as

/-- Insertion sort on rationals. -/
def sortQ (l : List ℚ) : List ℚ :=
  l.foldr insertSorted []

/-- pandas `Series.median`: middle element for odd length, mean of the two
middle elements for even length. -/
def medianQ (l : List ℚ) : Option ℚ :=
  let n := l.length
  let s := sortQ l
  if n = 0 then none
  else if n % 2 = 1 then s.get? (n / 2)
  else
    match s.get? (n / 2 - 1), s.get? (n / 2) with
    | some a, some b => some ((a + b) / 2)
    | _, _ => none

/-- `groupby(['case_admission_id', 'dosage_label'])['value'].count()`:
row counts per (case, label) group, keys in order of first appearance. -/
def groupCounts (rows : List LabRow) : List ((String × String) × Nat) :=
  let keys := (rows.map (fun r => (r.case_admission_id, r.dosage_label))).dedup
  keys.map (fun k =>
    (k, rows.countP (fun r => (r.case_admission_id, r.dosage_label) == k)))

/-- Per-label median of the per-case observation counts
(`median_observations_per_case_admission_id_df`). -/
def medianObsPerCase (rows : List LabRow) : List (String × ℚ) :=
  let counts := groupCounts rows
  let labels := (counts.map (fun c => c.1.2)).dedup
  labels.map (fun l =>
    (l, (medianQ ((counts.filter (fun c => c.1.2 == l)).map (fun c => (c.2 : ℚ)))).getD 0))

/-- The clean table together with the audit summary `preprocess_labs`
computes and (when `log_dir` is set) persists. -/
structure PreprocessResult where
  table : List LabRow
  includedDosageLabels : List String
  droppedDosageLabels : List String
  excludedMaterial : List String
  nOutOfRange : Nat
  medianObs : List (String × ℚ)
deriving DecidableEq, Repr

/-- The pipeline from the reorganised long table through the per-label
allowed-unit filtering (everything before the single-unit assertion). -/
def throughUnitFilter (equivalentLabels : List (List String))
    (dosageUnits : List (String × List String)) (selected_variables : List String)
    (material_to_include : List String) (rows : List LabRow) :
    Except PErr (List LabRow × List String × List String × List String) :=
  (materialPhase material_to_include
      (labelPhase equivalentLabels selected_variables rows).1).map
    (fun me => (filterDosageUnits dosageUnits (mergeUnitEquivalents me.1),
                (labelPhase equivalentLabels selected_variables rows).2.1,
                (labelPhase equivalentLabels selected_variables rows).2.2, me.2))

/-- `preprocess_labs` on the reorganised long table: label, material,
unit, value and range phases in source order, returning the clean table
and audit summary, or the first fatal error. -/
def preprocess_labs (equivalentLabels : List (List String))
    (dosageUnits : List (String × List String)) (ranges : List (String × ℚ × ℚ))
    (selected_variables : List String) (material_to_include : List String)
    (rows : List LabRow) : Except PErr PreprocessResult :=
  match throughUnitFilter equivalentLabels dosageUnits selected_variables
      material_to_include rows with
  | .error err => .error err
  | .ok front =>
    match checkUnits front.1 with
    | .error err => .error err
    | .ok _ =>
      match valueStage front.1 with
      | .error err => .error err
      | .ok t8 =>
        .ok { table := (rangeStage ranges (negativeStage t8)).1
              includedDosageLabels := front.2.1
              droppedDosageLabels := front.2.2.1
              excludedMaterial := front.2.2.2
              nOutOfRange := (rangeStage ranges (negativeStage t8)).2
              medianObs := medianObsPerCase (rangeStage ranges (negativeStage t8)).1 }

/-- A row of a wide (one-column-group-per-analyte) input table: an
association list from column name to cell (`none` models NaN; looking up
an absent column also yields `none`). -/
def WRow : Type := List (String × Option String)

/-- Cell lookup in a wide row. -/
def wlookup (r : WRow) (c : String) : Option String :=
  match r.find? (fun p => p.1 == c) with
  | some p => p.2
  | none => none

/-- Join character-list pieces with an underscore (Python
`'_'.join(...)`). -/
def joinWithUnderscore : List (List Char) → List Char
  | [] => []
  | [p] => p
  | p :: rest => p ++ '_' :: joinWithUnderscore rest

/-- `'{analyte}_{field}'` column-name prefix (Python
`c.split('_')[0]`). -/
def colPrefixOf (c : String) : String :=
  ((splitOnChar '_' c.toList).headD []).asString

/-- Field part of a wide column name (Python `'_'.join(c.split('_')[1:])`). -/
def colFieldOf (c : String) : String :=
  (joinWithUnderscore ((splitOnChar '_' c.toList).tail)).asString

/-- Wide-to-long reshape of `preprocess_labs` (lines 58-74): one block per
analyte name found among the non-identification columns, keeping the rows
whose `{analyte}_value` cell is present, with the analyte's columns renamed
to their field part and the block tagged with the analyte name
(`lab_name`).  The analyte names come from a Python `set`; this model
fixes the order of first appearance, which no claim depends on. -/
def reshapeWide (cols : List String) (rows : List WRow) : List (WRow × String) :=
  let labNames := ((cols.filter (fun c => !(decide (c ∈ identification_columns)))).map
    colPrefixOf).dedup
  (labNames.map (fun name =>
    let selectedCols := cols.filter (fun c => colPrefixOf c == name)
    let rowsKept := rows.filter (fun r => (wlookup r (name ++ "_value")).isSome)
    rowsKept.map (fun r =>
      ((identification_columns.map (fun c => (c, wlookup r c)) ++
        selectedCols.map (fun c => (colFieldOf c, wlookup r c)) : WRow), name)))).flatten

/-- A row of the alternate-source (MIMIC) lab table, restricted to the
columns the text-conversion step reads: textual `value`, numeric
`valuenum`. -/
structure MimicRow where
  label : String
  value : Value
  valuenum : Option ℚ
deriving DecidableEq, Repr

/-- `non_interpretable_non_numerical_values` (`mimic_preprocess_labs`). -/
def non_interpretable_non_numerical_values : List String :=
  ["NEG", "TR", "UNABLE TO REPORT", "ERROR", "UNABLE TO PERFORM"]

/-- Apply the three textual-estimate patterns of `mimic_preprocess_labs`
to one row, in source order: a `>` anywhere (take the text after the
first `>`, times 1.05), a case-insensitive `greater than ` (split on the
uppercase literal, take the second piece, times 1.05), a case-insensitive
`IS HIGHEST MEASURED ` (split on the uppercase literal, take the first
piece, times 1.05).  Both `value` and `valuenum` receive the estimate.
A matching row whose split piece Python's `float` cannot parse (or whose
lowercase match defeats the exact-case `split`) makes the source raise;
that is the `.error` case. -/
def applyPatterns (r : MimicRow) : Except String MimicRow :=
  match r.value with
  | .str s =>
    if containsSub s ">" then
      match (splitOnChar '>' s.toList).tail.headD [] with
      | piece =>
        match parseNumeric piece.asString with
        | some q => .ok { r with value := .num (q * 1.05), valuenum := some (q * 1.05) }
        | none => .error s
    else if containsCI s "greater than " then
      match (splitOnChars "GREATER THAN ".toList s.toList).tail with
      | piece :: _ =>
        match parseNumeric piece.asString with
        | some q => .ok { r with value := .num (q * 1.05), valuenum := some (q * 1.05) }
        | none => .error s
      | [] => .error s
    else if containsCI s "IS HIGHEST MEASURED " then
      match parseNumeric (((splitOnChars "IS HIGHEST MEASURED ".toList s.toList).headD
          []).asString) with
      | some q => .ok { r with value := .num (q * 1.05), valuenum := some (q * 1.05) }
      | none => .error s
    else .ok r
  | _ => .ok r

/-- Does the textual value of a row match none of the three recognized
patterns (rows with a non-text value vacuously match none)? -/
def noPatternB (r : MimicRow) : Bool :=
  match r.value with
  | .str s => !(containsSub s ">") && !(containsCI s "greater than ") &&
              !(containsCI s "IS HIGHEST MEASURED ")
  | _ => true

/-- `valuenum.isna() & ~value.isna()`: the row still has a textual value
but no numeric estimate. -/
def noEstimateB (r : MimicRow) : Bool :=
  r.valuenum.isNone && !(r.value == .null)

/-- The non-numerical-value conversion step of `mimic_preprocess_labs`:
apply the three patterns, count the rows left without a numeric estimate
(the reported exclusion count), and drop them. -/
def mimicConvertValues (rows : List MimicRow) : Except String (List MimicRow × Nat) := do
  let rows2 ← rows.mapM applyPatterns
  .ok (rows2.filter (fun r => !noEstimateB r), rows2.countP noEstimateB)

/-- The key fields of a row that the value, negative and range phases
never touch. -/
def keyFields (r : LabRow) : String × String × String :=
  (r.dosage_label, r.material_label, r.unit_of_measure)

/-- Bool form of the one-unit-per-label invariant over a table. -/
def unitInvariantB (t : List LabRow) : Bool :=
  ((t.map (fun r => r.dosage_label)).dedup).all
    (fun l => (distinctUnitsFor t l).length == 1)

/-- Does the row's label belong to the pO2/pCO2/pH family (substring
test, as in the source)? -/
def familyContainsB (r : LabRow) : Bool :=
  containsSub r.dosage_label "pO2" || containsSub r.dosage_label "pCO2" ||
    containsSub r.dosage_label "pH"

/-- Bool form of the material invariant for one row. -/
def bloodGasOkB (r : LabRow) : Bool :=
  !familyContainsB r || (r.material_label == "sga")

/-- No row of the table has a blood-gas-family label. -/
def noBloodGasB (t : List LabRow) : Bool :=
  t.all (fun r => !familyContainsB r)

/-- Did the pipeline end in the arterial/venous material-contradiction
error? -/
def isMaterialContradictionB : Except PErr PreprocessResult → Bool
  | .error (.materialContradiction _ _) => true
  | _ => false

/-- Bool form of the range invariant for one row: when the row's label
has a configured range, the value lies inclusively within it. -/
def inRangeB (ranges : List (String × ℚ × ℚ)) (r : LabRow) : Bool :=
  match lookupRange ranges r.dosage_label with
  | some mm => betweenB r.value mm.1 mm.2
  | none => true

theorem mem_distinctUnitsFor {rows : List LabRow} {lbl u : String} :
    u ∈ distinctUnitsFor rows lbl ↔
      ∃ r ∈ rows, r.dosage_label = lbl ∧ r.unit_of_measure = u := by
  simp [distinctUnitsFor, List.mem_dedup, List.mem_filter]
  constructor
  · rintro ⟨r, ⟨hr, hl⟩, hu⟩
    exact ⟨r, hr, by simpa using hl, hu⟩
  · rintro ⟨r, hr, hl, hu⟩
    exact ⟨r, ⟨hr, by simpa using hl⟩, hu⟩

theorem nodup_all_eq_singleton {l : List String} {a : String}
    (hnd : l.Nodup) (hall : ∀ x ∈ l, x = a) (hne : l ≠ []) : l = [a] := by
  match l, hnd, hall, hne with
  | [], _, _, hne => exact absurd rfl hne
  | [x], _, hall, _ => simp [hall x (by simp)]
  | x :: y :: t, hnd, hall, _ =>
    exfalso
    have hx : x = a := hall x (by simp)
    have hy : y = a := hall y (by simp)
    have : x ∉ y :: t := (List.nodup_cons.mp hnd).1
    exact this (by simp [hx, hy])

theorem bloodGasStep_eq (lbl : String) (rows : List LabRow) :
    bloodGasStep lbl rows = .ok (bgFilter lbl rows) := by
  unfold bloodGasStep
  have hall : ∀ m ∈ bgMaterials lbl (bgFilter lbl rows), m = "sga" := by
    intro m hm
    simp only [bgMaterials, List.mem_dedup, List.mem_map, List.mem_filter] at hm
    obtain ⟨r, ⟨hr, hc⟩, hmat⟩ := hm
    simp only [bgFilter, List.mem_filter] at hr
    have := hr.2
    rw [hc] at this
    simp only [Bool.true_and, Bool.not_not] at this
    rw [← hmat]
    exact (beq_iff_eq.mp this)
  have hlen : ¬ 1 < (bgMaterials lbl (bgFilter lbl rows)).length := by
    intro hgt
    have hnd : (bgMaterials lbl (bgFilter lbl rows)).Nodup := List.nodup_dedup _
    match hmat : bgMaterials lbl (bgFilter lbl rows), hgt, hnd with
    | [], hgt, _ => simp at hgt
    | [x], hgt, _ => simp at hgt
    | x :: y :: t, _, hnd =>
      have hx : x = "sga" := hall x (by rw [hmat]; simp)
      have hy : y = "sga" := hall y (by rw [hmat]; simp)
      have : x ∉ y :: t := (List.nodup_cons.mp hnd).1
      exact this (by simp [hx, hy])
  rw [if_neg]
  simp [hlen]

theorem bloodGasLoop_eq (rows : List LabRow) :
    bloodGasLoop rows = .ok (bgFilter "pH" (bgFilter "pCO2" (bgFilter "pO2" rows))) := by
  simp only [bloodGasLoop, List.foldlM, bloodGasStep_eq]
  rfl

theorem materialPhase_eq (mat : List String) (rows : List LabRow) :
    materialPhase mat rows =
      .ok (bgFilter "pH" (bgFilter "pCO2" (bgFilter "pO2"
             ((mergeBloodMaterials rows).filter
               (fun r => decide (r.material_label ∈ mat))))),
           ((mergeBloodMaterials rows).map (fun r => r.material_label)).dedup.filter
             (fun m => !(decide (m ∈ mat)))) := by
  simp [materialPhase, bloodGasLoop_eq, Except.map]

theorem mem_bgFilter {lbl : String} {rows : List LabRow} {r : LabRow}
    (h : r ∈ bgFilter lbl rows) :
    r ∈ rows ∧ (containsSub r.dosage_label lbl = true → r.material_label = "sga") := by
  simp only [bgFilter, List.mem_filter] at h
  refine ⟨h.1, fun hc => ?_⟩
  have := h.2
  rw [hc] at this
  simp only [Bool.true_and, Bool.not_not] at this
  exact beq_iff_eq.mp this

theorem mem_filterDosageUnits {du : List (String × List String)} {rows : List LabRow}
    {r : LabRow} (h : r ∈ filterDosageUnits du rows) : r ∈ rows := by
  induction du generalizing rows with
  | nil => simpa [filterDosageUnits] using h
  | cons lu du ih =>
    have h' : r ∈ filterDosageUnits du
        (rows.filter (fun r =>
          !((r.dosage_label == lu.1) && !(decide (r.unit_of_measure ∈ lu.2))))) := h
    exact List.mem_of_mem_filter (ih h')

theorem mem_mergeUnitEquivalents {rows : List LabRow} {r : LabRow}
    (h : r ∈ mergeUnitEquivalents rows) :
    ∃ r' ∈ rows, r.dosage_label = r'.dosage_label ∧
      r.material_label = r'.material_label := by
  simp only [mergeUnitEquivalents, unit_of_measure_equivalents, List.foldl_cons,
    List.foldl_nil, List.mem_map] at h
  obtain ⟨r', hr', heq⟩ := h
  refine ⟨r', hr', ?_⟩
  subst heq
  by_cases hc : r'.unit_of_measure = "U/ml" <;> simp [hc]

theorem keyFields_coerceRow (r : LabRow) : keyFields (coerceRow r) = keyFields r := rfl

theorem valueStage_ok_iff {rows : List LabRow} :
    (∃ out, valueStage rows = .ok out) ↔ badValuesOf rows = [] := by
  unfold valueStage
  by_cases h : badValuesOf rows = [] <;> simp [h]

theorem valueStage_ok_eq {rows : List LabRow} (h : badValuesOf rows = []) :
    valueStage rows =
      .ok ((((correct_non_numerical_values rows).filter
             (fun r => !isRemovedToken r.value)).filter
             (fun r => !(r.value == .null))).map coerceRow) := by
  unfold valueStage
  simp [h]

theorem valueStage_error_eq {rows : List LabRow} (h : badValuesOf rows ≠ []) :
    valueStage rows = .error (.remainingNonNumerical (badValuesOf rows)) := by
  unfold valueStage
  simp [h]

theorem mem_valueStage {rows out : List LabRow} {r : LabRow}
    (h : valueStage rows = .ok out) (hr : r ∈ out) :
    ∃ r' ∈ rows, keyFields r = keyFields r' := by
  have hbad : badValuesOf rows = [] := by
    rcases valueStage_ok_iff.mp ⟨out, h⟩ with h'
    exact h'
  rw [valueStage_ok_eq hbad] at h
  have hout : out = (((correct_non_numerical_values rows).filter
      (fun r => !isRemovedToken r.value)).filter
      (fun r => !(r.value == .null))).map coerceRow := by
    cases h
    rfl
  subst hout
  obtain ⟨r2, hr2, heq⟩ := List.mem_map.mp hr
  have hr3 : r2 ∈ (correct_non_numerical_values rows).filter
      (fun r => !isRemovedToken r.value) := List.mem_of_mem_filter hr2
  have hr4 : r2 ∈ correct_non_numerical_values rows := List.mem_of_mem_filter hr3
  obtain ⟨r', hr', heq'⟩ := List.mem_map.mp hr4
  refine ⟨r', hr', ?_⟩
  rw [← heq, keyFields_coerceRow, ← heq']
  rfl

theorem keyFields_nullIf (cond : LabRow → Bool) (r : LabRow) :
    keyFields (nullIf cond r) = keyFields r := by
  unfold nullIf
  split <;> rfl

theorem value_nullIf (cond : LabRow → Bool) (r : LabRow) :
    (nullIf cond r).value = r.value ∨ (nullIf cond r).value = .null := by
  unfold nullIf
  split <;> simp

theorem mem_negativeStage {rows : List LabRow} {r : LabRow}
    (h : r ∈ negativeStage rows) :
    ∃ r' ∈ rows, keyFields r = keyFields r' ∧
      (r.value = r'.value ∨ r.value = .null) := by
  simp only [negativeStage] at h
  have h1 := List.mem_of_mem_filter h
  obtain ⟨r2, hr2, heq2⟩ := List.mem_map.mp h1
  obtain ⟨r', hr', heq'⟩ := List.mem_map.mp hr2
  refine ⟨r', hr', ?_⟩
  subst heq2 heq'
  refine ⟨by rw [keyFields_nullIf, keyFields_nullIf], ?_⟩
  rcases value_nullIf (fun r => (r.dosage_label == "glucose") && valueNegB r.value)
      (nullIf (fun r =>
        decide (r.dosage_label ∈ ["hémoglobine", "hemoglobine"]) && valueNegB r.value) r')
    with hv | hv
  · rw [hv]
    rcases value_nullIf (fun r =>
        decide (r.dosage_label ∈ ["hémoglobine", "hemoglobine"]) && valueNegB r.value) r'
      with hv' | hv'
    · exact Or.inl hv'
    · exact Or.inr hv'
  · exact Or.inr hv

theorem keyFields_rangeNullRow (ranges : List (String × ℚ × ℚ)) (r : LabRow) :
    keyFields (rangeNullRow ranges r) = keyFields r := by
  unfold rangeNullRow
  cases lookupRange ranges r.dosage_label with
  | none => rfl
  | some mm => by_cases h : betweenB r.value mm.1 mm.2 <;> simp [h, keyFields]

theorem mem_rangeStage {ranges : List (String × ℚ × ℚ)} {rows : List LabRow} {r : LabRow}
    (h : r ∈ (rangeStage ranges rows).1) :
    ∃ r' ∈ rows, r = rangeNullRow ranges r' ∧ ¬ r.value = .null := by
  simp only [rangeStage, List.mem_filter, List.mem_map] at h
  obtain ⟨⟨r', hr', heq⟩, hnn⟩ := h
  exact ⟨r', hr', heq.symm, by simpa using hnn⟩

theorem rangeStage_mem_inRange {ranges : List (String × ℚ × ℚ)} {rows : List LabRow}
    {r : LabRow} (h : r ∈ (rangeStage ranges rows).1) : inRangeB ranges r = true := by
  obtain ⟨r', _, heq, hnn⟩ := mem_rangeStage h
  subst heq
  have hlab : (rangeNullRow ranges r').dosage_label = r'.dosage_label :=
    congrArg (fun p => p.1) (keyFields_rangeNullRow ranges r')
  unfold inRangeB
  rw [hlab]
  unfold rangeNullRow at hnn ⊢
  cases hlk : lookupRange ranges r'.dosage_label with
  | none => simp [hlk]
  | some mm =>
    simp only [hlk] at hnn ⊢
    by_cases hb : betweenB r'.value mm.1 mm.2 = true
    · simp [hb]
    · simp only [if_neg hb] at hnn
      simp at hnn

theorem checkUnits_ok {rows : List LabRow} (h : checkUnits rows = .ok ())
    {l : String} (hl : l ∈ (rows.map (fun r => r.dosage_label)).dedup) :
    ¬ 1 < (distinctUnitsFor rows l).length := by
  unfold checkUnits at h
  cases hf : ((rows.map (fun r => r.dosage_label)).dedup).find?
      (fun l => decide (1 < (distinctUnitsFor rows l).length)) with
  | some l₀ => rw [hf] at h; exact absurd h (by simp)
  | none =>
    have := List.find?_eq_none.mp hf l hl
    simpa using this

theorem throughUnitFilter_ok_elim {e : List (List String)}
    {du : List (String × List String)} {sel mat : List String} {rows : List LabRow}
    {front : List LabRow × List String × List String × List String}
    (h : throughUnitFilter e du sel mat rows = .ok front) :
    front.1 = filterDosageUnits du (mergeUnitEquivalents
      (bgFilter "pH" (bgFilter "pCO2" (bgFilter "pO2"
        ((mergeBloodMaterials (labelPhase e sel rows).1).filter
          (fun r => decide (r.material_label ∈ mat))))))) := by
  unfold throughUnitFilter at h
  rw [materialPhase_eq] at h
  simp only [Except.map] at h
  cases h
  simp

theorem preprocess_ok_elim {e : List (List String)} {du : List (String × List String)}
    {ra : List (String × ℚ × ℚ)} {sel mat : List String} {rows : List LabRow}
    {res : PreprocessResult}
    (h : preprocess_labs e du ra sel mat rows = .ok res) :
    ∃ front, throughUnitFilter e du sel mat rows = .ok front ∧
      checkUnits front.1 = .ok () ∧
      ∃ t8, valueStage front.1 = .ok t8 ∧
        res.table = (rangeStage ra (negativeStage t8)).1 ∧
        res.nOutOfRange = (rangeStage ra (negativeStage t8)).2 ∧
        res.medianObs = medianObsPerCase res.table := by
  unfold preprocess_labs at h
  cases h1 : throughUnitFilter e du sel mat rows with
  | error err =>
    simp only [h1] at h
    simp at h
  | ok front =>
    simp only [h1] at h
    cases h2 : checkUnits front.1 with
    | error err =>
      simp only [h2] at h
      simp at h
    | ok u =>
      cases u
      simp only [h2] at h
      cases h3 : valueStage front.1 with
      | error err =>
        simp only [h3] at h
        simp at h
      | ok t8 =>
        simp only [h3] at h
        cases h
        exact ⟨front, rfl, h2, t8, h3, rfl, rfl, rfl⟩

theorem mem_badValuesOf {rows : List LabRow} {s : String} :
    s ∈ badValuesOf rows ↔
      ∃ r ∈ (((correct_non_numerical_values rows).filter
          (fun r => !isRemovedToken r.value)).filter
          (fun r => !(r.value == .null))),
        r.value = .str s ∧ parseNumeric s = none := by
  unfold badValuesOf
  rw [List.mem_dedup, List.mem_filterMap]
  constructor
  · rintro ⟨r, hr, hs⟩
    refine ⟨r, hr, ?_⟩
    cases hv : r.value with
    | str s' =>
      rw [hv] at hs
      simp only at hs
      by_cases hp : (parseNumeric s').isNone
      · rw [if_pos hp] at hs
        cases hs
        exact ⟨rfl, Option.isNone_iff_eq_none.mp hp⟩
      · rw [if_neg hp] at hs
        cases hs
    | num q => rw [hv] at hs; cases hs
    | null => rw [hv] at hs; cases hs
  · rintro ⟨r, hr, hv, hp⟩
    refine ⟨r, hr, ?_⟩
    rw [hv]
    simp [hp]

theorem valueStage_ok_allNum {rows out : List LabRow} (h : valueStage rows = .ok out) :
    out.all (fun r => valueIsNumB r.value) = true := by
  have hbad : badValuesOf rows = [] := valueStage_ok_iff.mp ⟨out, h⟩
  rw [valueStage_ok_eq hbad] at h
  have hout : out = (((correct_non_numerical_values rows).filter
      (fun r => !isRemovedToken r.value)).filter
      (fun r => !(r.value == .null))).map coerceRow := by
    cases h
    rfl
  subst hout
  rw [List.all_eq_true]
  intro r hr
  obtain ⟨r2, hr2, heq⟩ := List.mem_map.mp hr
  cases hv : r2.value with
  | num q =>
    subst heq
    simp [coerceRow, hv, valueIsNumB]
  | null =>
    have := (List.mem_filter.mp hr2).2
    rw [hv] at this
    simp at this
  | str s =>
    cases hp : parseNumeric s with
    | some q =>
      subst heq
      simp [coerceRow, hv, hp, valueIsNumB]
    | none =>
      exfalso
      have hmem : s ∈ badValuesOf rows :=
        mem_badValuesOf.mpr ⟨r2, hr2, hv, hp⟩
      rw [hbad] at hmem
      cases hmem

theorem negativeStage_no_null {rows : List LabRow} {r : LabRow}
    (h : r ∈ negativeStage rows) : ¬ r.value = .null := by
  simp only [negativeStage, List.mem_filter] at h
  simpa using h.2

theorem negativeStage_allNum {rows : List LabRow}
    (hall : rows.all (fun r => valueIsNumB r.value) = true) :
    (negativeStage rows).all (fun r => valueIsNumB r.value) = true := by
  rw [List.all_eq_true]
  intro r hr
  obtain ⟨r', hr', _, hv⟩ := mem_negativeStage hr
  rcases hv with hv | hv
  · rw [hv]
    exact List.all_eq_true.mp hall r' hr'
  · exact absurd hv (negativeStage_no_null hr)

theorem rangeNullRow_of_inRange {ranges : List (String × ℚ × ℚ)} {r : LabRow}
    (h : inRangeB ranges r = true) : rangeNullRow ranges r = r := by
  unfold inRangeB at h
  unfold rangeNullRow
  cases hlk : lookupRange ranges r.dosage_label with
  | none => rfl
  | some mm =>
    simp only [hlk] at h
    simp [h]

theorem rangeNullRow_null_of_notInRange {ranges : List (String × ℚ × ℚ)} {r : LabRow}
    (h : inRangeB ranges r = false) : (rangeNullRow ranges r).value = .null := by
  unfold inRangeB at h
  unfold rangeNullRow
  cases hlk : lookupRange ranges r.dosage_label with
  | none =>
    simp only [hlk] at h
    cases h
  | some mm =>
    simp only [hlk] at h
    simp [h]

theorem rangeStage_eq_of_allNum {ranges : List (String × ℚ × ℚ)} {rows : List LabRow}
    (hall : rows.all (fun r => valueIsNumB r.value) = true) :
    (rangeStage ranges rows).1 = rows.filter (fun r => inRangeB ranges r) ∧
      (rangeStage ranges rows).2 = rows.countP (fun r => !inRangeB ranges r) := by
  induction rows with
  | nil => exact ⟨rfl, rfl⟩
  | cons r rs ih =>
    rw [List.all_cons, Bool.and_eq_true] at hall
    obtain ⟨h1, h2⟩ := hall
    obtain ⟨ih1, ih2⟩ := ih h2
    by_cases hin : inRangeB ranges r = true
    · have he := rangeNullRow_of_inRange hin
      have hnn : (r.value == Value.null) = false := by
        cases hv : r.value <;> simp [valueIsNumB, hv] at h1 ⊢
      constructor
      · simp only [rangeStage, List.map_cons, List.filter_cons, he, hnn] at ih1 ⊢
        simp only [Bool.not_false, if_pos rfl, hin, ih1]
      · simp only [rangeStage, List.map_cons, List.countP_cons, he, hnn] at ih2 ⊢
        simp [hin, ih2]
    · have hin' : inRangeB ranges r = false := by simpa using hin
      have hnull := rangeNullRow_null_of_notInRange hin'
      constructor
      · simp only [rangeStage, List.map_cons, List.filter_cons, hnull] at ih1 ⊢
        simp [hin', ih1]
      · simp only [rangeStage, List.map_cons, List.countP_cons, hnull] at ih2 ⊢
        simp [hin', ih2]

theorem keyFields_label_eq {a b : LabRow} (h : keyFields a = keyFields b) :
    a.dosage_label = b.dosage_label :=
  congrArg (fun p => p.1) h

theorem keyFields_material_eq {a b : LabRow} (h : keyFields a = keyFields b) :
    a.material_label = b.material_label :=
  congrArg (fun p => p.2.1) h

theorem keyFields_unit_eq {a b : LabRow} (h : keyFields a = keyFields b) :
    a.unit_of_measure = b.unit_of_measure :=
  congrArg (fun p => p.2.2) h

theorem throughUnitFilter_isOk (e : List (List String)) (du : List (String × List String))
    (sel mat : List String) (rows : List LabRow) :
    ∃ front, throughUnitFilter e du sel mat rows = .ok front := by
  unfold throughUnitFilter
  rw [materialPhase_eq]
  exact ⟨_, rfl⟩

theorem checkUnits_error_shape {rows : List LabRow} {err : PErr}
    (h : checkUnits rows = .error err) :
    ∃ l, err = .multipleUnits l (distinctUnitsFor rows l) := by
  unfold checkUnits at h
  cases hf : ((rows.map (fun r => r.dosage_label)).dedup).find?
      (fun l => decide (1 < (distinctUnitsFor rows l).length)) with
  | some l => rw [hf] at h; cases h; exact ⟨l, rfl⟩
  | none => rw [hf] at h; cases h

theorem valueStage_error_shape {rows : List LabRow} {err : PErr}
    (h : valueStage rows = .error err) :
    err = .remainingNonNumerical (badValuesOf rows) := by
  unfold valueStage at h
  by_cases hb : badValuesOf rows = []
  · rw [if_pos hb] at h; cases h
  · rw [if_neg hb] at h; cases h; rfl

/-- Every row of the returned table descends from a row of the
material-filtered table that survived the three blood-gas drops, with
label and material preserved and the per-family arterial property. -/
theorem table_bloodgas_provenance {e : List (List String)}
    {du : List (String × List String)} {ra : List (String × ℚ × ℚ)}
    {sel mat : List String} {rows : List LabRow} {res : PreprocessResult}
    (h : preprocess_labs e du ra sel mat rows = .ok res) {r : LabRow}
    (hr : r ∈ res.table) :
    ∃ r2 ∈ (mergeBloodMaterials (labelPhase e sel rows).1).filter
        (fun x => decide (x.material_label ∈ mat)),
      r.dosage_label = r2.dosage_label ∧ r.material_label = r2.material_label ∧
      (containsSub r2.dosage_label "pO2" = true → r2.material_label = "sga") ∧
      (containsSub r2.dosage_label "pCO2" = true → r2.material_label = "sga") ∧
      (containsSub r2.dosage_label "pH" = true → r2.material_label = "sga") := by
  obtain ⟨front, h1, h2, t8, h3, htab, _, _⟩ := preprocess_ok_elim h
  rw [htab] at hr
  obtain ⟨x1, hx1, heq, _⟩ := mem_rangeStage hr
  obtain ⟨x2, hx2, hk2, _⟩ := mem_negativeStage hx1
  obtain ⟨x3, hx3, hk3⟩ := mem_valueStage h3 hx2
  have hkr : keyFields r = keyFields x3 := by
    rw [heq, keyFields_rangeNullRow, hk2, hk3]
  rw [throughUnitFilter_ok_elim h1] at hx3
  have hx4 := mem_filterDosageUnits hx3
  obtain ⟨x5, hx5, hlab5, hmat5⟩ := mem_mergeUnitEquivalents hx4
  have hA := mem_bgFilter hx5
  have hB := mem_bgFilter hA.1
  have hC := mem_bgFilter hB.1
  refine ⟨x5, hC.1, ?_, ?_, hC.2, hB.2, hA.2⟩
  · rw [keyFields_label_eq hkr, hlab5]
  · rw [keyFields_material_eq hkr, hmat5]

/-- Every row of the returned table descends from a row of the
unit-filtered table (`front.1`) with label, material and unit
preserved. -/
theorem table_unit_provenance {ra : List (String × ℚ × ℚ)} {t t8 : List LabRow}
    (h3 : valueStage t = .ok t8) {r : LabRow}
    (hr : r ∈ (rangeStage ra (negativeStage t8)).1) :
    ∃ r' ∈ t, keyFields r = keyFields r' := by
  obtain ⟨x1, hx1, heq, _⟩ := mem_rangeStage hr
  obtain ⟨x2, hx2, hk2, _⟩ := mem_negativeStage hx1
  obtain ⟨x3, hx3, hk3⟩ := mem_valueStage h3 hx2
  exact ⟨x3, hx3, by rw [heq, keyFields_rangeNullRow, hk2, hk3]⟩

theorem applyPatterns_noPattern {r : MimicRow} (h : noPatternB r = true) :
    applyPatterns r = .ok r := by
  unfold noPatternB at h
  unfold applyPatterns
  cases hv : r.value with
  | str s =>
    rw [hv] at h
    simp only [Bool.and_eq_true, Bool.not_eq_true'] at h
    obtain ⟨⟨h1, h2⟩, h3⟩ := h
    simp [h1, h2, h3]
  | num q => simp
  | null => simp

theorem mapM_applyPatterns_id {rows : List MimicRow}
    (h : ∀ r ∈ rows, noPatternB r = true) :
    rows.mapM applyPatterns = .ok rows := by
  induction rows with
  | nil => rfl
  | cons r rs ih =>
    rw [List.mapM_cons, applyPatterns_noPattern (h r (by simp)),
      ih (fun x hx => h x (by simp [hx]))]
    rfl

/-- C5: `correct_non_numerical_values` maps the censored literal `">83.2"`
for `glucose` to `83.2 * 1.05 = 87.36` and `"<5"` for `ALAT` to
`5 * 0.95 = 4.75`; every rule of the fixed table replaces a `>` literal by
its threshold times 1.05 and a `<` literal by its threshold times 0.95;
and a (label, value) pair matching no rule is left as its
apostrophe-stripped text. -/
theorem claim_c5_censored_values :
    correctValue "glucose" (.str ">83.2") = .num (83.2 * 1.05) ∧
    (83.2 * 1.05 : ℚ) = 87.36 ∧
    correctValue "ALAT" (.str "<5") = .num (5 * 0.95) ∧
    (5 * 0.95 : ℚ) = 4.75 ∧
    censoredValueRules.map (fun rule => rule.2) =
      [(">83.2", 83.2 * 1.05), (">70000", 70000 * 1.05), (">474", 474 * 1.05),
       (">445", 445 * 1.05), (">160.0", 160.0 * 1.05), (">11.00", 11.00 * 1.05),
       (">11.00", 11.00 * 1.05), (">11.0", 11.0 * 1.05), (">1.60", 1.60 * 1.05),
       (">1.31", 1.31 * 1.05), (">1.20", 1.20 * 1.05), (">180", 180 * 1.05),
       (">200.00", 200.00 * 1.05), ("<5", 5 * 0.95), ("<3", 3 * 0.95),
       ("<10", 10 * 0.95), ("<1.00", 1.00 * 0.95), ("<0.7", 0.7 * 0.95),
       ("<0.5", 0.5 * 0.95), ("<0.4", 0.4 * 0.95), ("<0.30", 0.30 * 0.95),
       ("<0.08", 0.08 * 0.95), ("<18", 18 * 0.95)] ∧
    (∀ lbl s, censoredValueRules.find? (ruleMatchesB lbl (removeApostrophes s)) = none →
      correctValue lbl (.str s) = .str (removeApostrophes s)) := by
  refine ⟨?_, by norm_num, ?_, by norm_num, ?_, ?_⟩
  · have e1 : correctValue "glucose" (.str ">83.2") = .num (83.2 + 0.05 * 83.2) := rfl
    have e2 : (83.2 + 0.05 * 83.2 : ℚ) = 83.2 * 1.05 := by norm_num
    rw [e1, e2]
  · have e1 : correctValue "ALAT" (.str "<5") = .num (5 - 0.05 * 5) := rfl
    have e2 : (5 - 0.05 * 5 : ℚ) = 5 * 0.95 := by norm_num
    rw [e1, e2]
  · simp only [censoredValueRules, List.map_cons, List.map_nil]
    norm_num
  · intro lbl s h
    show (match censoredValueRules.find? (ruleMatchesB lbl (removeApostrophes s)) with
          | some rule => Value.num rule.2.2
          | none => Value.str (removeApostrophes s)) = Value.str (removeApostrophes s)
    rw [h]

/-- C6: in the value phase of `preprocess_labs`, rows whose value is one
of the fixed exclusion tokens are dropped without raising; if any value
that parses to no number remains after that filtering, the phase (and
`preprocess_labs` with it) fails with an error enumerating exactly those
values — which are never exclusion tokens — and when the phase succeeds
every surviving value is numeric. -/
theorem claim_c6_nonnumeric_fatal :
    (∀ rows, badValuesOf rows = [] →
      ∃ out, valueStage rows = .ok out ∧
        out.all (fun r => valueIsNumB r.value) = true) ∧
    (∀ rows, badValuesOf rows ≠ [] →
      valueStage rows = .error (.remainingNonNumerical (badValuesOf rows))) ∧
    (∀ rows s, s ∈ badValuesOf rows →
      s ∉ non_numerical_values_to_remove ∧ parseNumeric s = none) ∧
    (∀ e du ra sel mat rows front,
      throughUnitFilter e du sel mat rows = .ok front →
      checkUnits front.1 = .ok () →
      badValuesOf front.1 ≠ [] →
      preprocess_labs e du ra sel mat rows =
        .error (.remainingNonNumerical (badValuesOf front.1))) := by
  refine ⟨?_, ?_, ?_, ?_⟩
  · intro rows h
    exact ⟨_, valueStage_ok_eq h, valueStage_ok_allNum (valueStage_ok_eq h)⟩
  · intro rows h
    exact valueStage_error_eq h
  · intro rows s h
    obtain ⟨r, hr, hv, hp⟩ := mem_badValuesOf.mp h
    refine ⟨?_, hp⟩
    have htok := (List.mem_filter.mp (List.mem_of_mem_filter hr)).2
    rw [hv] at htok
    simpa [isRemovedToken] using htok
  · intro e du ra sel mat rows front h1 h2 h3
    unfold preprocess_labs
    simp only [h1, h2, valueStage_error_eq h3]

/-- C7: in `mimic_preprocess_labs`, a row whose textual value matches
none of the three recognized patterns is never the cause of an abort,
and on a table of such rows the conversion step returns (rather than
raises), dropping exactly the rows left without a numeric estimate and
reporting their count. -/
theorem claim_c7_mimic_text_nonfatal :
    (∀ r : MimicRow, noPatternB r = true → applyPatterns r = .ok r) ∧
    (∀ rows : List MimicRow, (∀ r ∈ rows, noPatternB r = true) →
      mimicConvertValues rows =
        .ok (rows.filter (fun r => !noEstimateB r), rows.countP noEstimateB)) := by
  refine ⟨fun r h => applyPatterns_noPattern h, ?_⟩
  intro rows h
  unfold mimicConvertValues
  rw [mapM_applyPatterns_id h]
  rfl

/-- C2 (divergence evaluation): on an input holding a `pH` row with
arterial material `sga` and a `pH` row with venous material `sgv`, both
of which survive material filtering (as `any_blood`), `preprocess_labs`
does not raise the material-contradiction error: it silently drops both
rows and returns an empty table. -/
theorem claim_c2_ph_contradiction_not_raised :
    preprocess_labs [] [] [] ["pH"] ["any_blood"]
      [⟨"1_0001", "d", "pH", "sga", "kPa", .str "7.4"⟩,
       ⟨"1_0001", "d", "pH", "sgv", "kPa", .str "7.2"⟩] =
    .ok { table := [], includedDosageLabels := ["pH"], droppedDosageLabels := [],
          excludedMaterial := [], nOutOfRange := 0, medianObs := [] } := by
  rfl

/-- C1: whenever `preprocess_labs` returns a table, every dosage label
present in it has exactly one distinct unit of measure; and if, after
unit-synonym merging and per-label allowed-unit filtering, some label
still has more than one distinct unit, `preprocess_labs` raises the
multiple-units error naming a variable and its offending unit set
instead of returning. -/
theorem claim_c1_unit_invariant :
    (∀ e du ra sel mat rows res,
      preprocess_labs e du ra sel mat rows = .ok res →
      unitInvariantB res.table = true) ∧
    (∀ e du ra sel mat rows front,
      throughUnitFilter e du sel mat rows = .ok front →
      (∃ l ∈ (front.1.map (fun r => r.dosage_label)).dedup,
        1 < (distinctUnitsFor front.1 l).length) →
      ∃ l, preprocess_labs e du ra sel mat rows =
          .error (.multipleUnits l (distinctUnitsFor front.1 l)) ∧
        1 < (distinctUnitsFor front.1 l).length) := by
  constructor
  · intro e du ra sel mat rows res h
    obtain ⟨front, h1, h2, t8, h3, htab, _, _⟩ := preprocess_ok_elim h
    unfold unitInvariantB
    rw [List.all_eq_true]
    intro l hl
    obtain ⟨r, hr, hrl⟩ := List.mem_map.mp (List.mem_dedup.mp hl)
    have hprov : ∀ x, x ∈ res.table → ∃ x' ∈ front.1, keyFields x = keyFields x' := by
      intro x hx
      rw [htab] at hx
      exact table_unit_provenance h3 hx
    obtain ⟨r', hr', hkr⟩ := hprov r hr
    have hl' : l ∈ (front.1.map (fun x => x.dosage_label)).dedup := by
      rw [List.mem_dedup]
      exact List.mem_map.mpr ⟨r', hr', by rw [← keyFields_label_eq hkr, hrl]⟩
    have hle := checkUnits_ok h2 hl'
    have hne : r'.unit_of_measure ∈ distinctUnitsFor front.1 l :=
      mem_distinctUnitsFor.mpr ⟨r', hr', by rw [← keyFields_label_eq hkr, hrl], rfl⟩
    obtain ⟨u₀, hu₀⟩ : ∃ u₀, distinctUnitsFor front.1 l = [u₀] := by
      cases hcase : distinctUnitsFor front.1 l with
      | nil => rw [hcase] at hne; cases hne
      | cons a t =>
        cases t with
        | nil => exact ⟨a, rfl⟩
        | cons b t' => rw [hcase] at hle; exfalso; apply hle; simp
    have hsub : ∀ u ∈ distinctUnitsFor res.table l, u = u₀ := by
      intro u hu
      obtain ⟨x, hx, hxl, hxu⟩ := mem_distinctUnitsFor.mp hu
      obtain ⟨x', hx', hkx⟩ := hprov x hx
      have : u ∈ distinctUnitsFor front.1 l :=
        mem_distinctUnitsFor.mpr ⟨x', hx',
          by rw [← keyFields_label_eq hkx, hxl],
          by rw [← keyFields_unit_eq hkx, hxu]⟩
      rw [hu₀] at this
      simpa using this
    have hne2 : r.unit_of_measure ∈ distinctUnitsFor res.table l :=
      mem_distinctUnitsFor.mpr ⟨r, hr, hrl, rfl⟩
    have hnil : distinctUnitsFor res.table l ≠ [] := by
      intro hcontra
      rw [hcontra] at hne2
      cases hne2
    have hsing : distinctUnitsFor res.table l = [u₀] :=
      nodup_all_eq_singleton
        (by unfold distinctUnitsFor; exact List.nodup_dedup _) hsub hnil
    rw [hsing]
    rfl
  · intro e du ra sel mat rows front h1 hex
    have hsome : (((front.1.map (fun r => r.dosage_label)).dedup).find?
        (fun l => decide (1 < (distinctUnitsFor front.1 l).length))).isSome := by
      rw [List.find?_isSome]
      obtain ⟨l, hl, hlen⟩ := hex
      exact ⟨l, hl, by simpa using hlen⟩
    obtain ⟨l₀, hfind⟩ := Option.isSome_iff_exists.mp hsome
    have hpred := List.find?_some hfind
    have hcheck : checkUnits front.1 =
        .error (.multipleUnits l₀ (distinctUnitsFor front.1 l₀)) := by
      unfold checkUnits
      rw [hfind]
    refine ⟨l₀, ?_, by simpa using hpred⟩
    unfold preprocess_labs
    simp only [h1, hcheck]

/-- C3: under the default configuration (`material_to_include =
['any_blood']`) the returned table holds no row whose dosage label
contains `pO2`, `pCO2` or `pH` — the material-synonym merge rewrites
`sga` to `any_blood` before the blood-gas filter keeps only literal
`sga` rows — and the arterial/venous material-contradiction error can
never be raised, whatever the configuration. -/
theorem claim_c3_bloodgas_rows_all_dropped :
    (∀ e du ra sel rows res,
      preprocess_labs e du ra sel ["any_blood"] rows = .ok res →
      noBloodGasB res.table = true) ∧
    (∀ e du ra sel mat rows,
      isMaterialContradictionB (preprocess_labs e du ra sel mat rows) = false) := by
  constructor
  · intro e du ra sel rows res h
    unfold noBloodGasB
    rw [List.all_eq_true]
    intro r hr
    obtain ⟨r2, hr2, hlab, hmat, hpO2, hpCO2, hpH⟩ := table_bloodgas_provenance h hr
    have hblood : r2.material_label = "any_blood" := by
      have := (List.mem_filter.mp hr2).2
      simpa using this
    have hno : ∀ lbl, (containsSub r2.dosage_label lbl = true →
        r2.material_label = "sga") → containsSub r.dosage_label lbl = false := by
      intro lbl himp
      rw [hlab]
      by_contra hcc
      have hc : containsSub r2.dosage_label lbl = true := by
        simpa using hcc
      have := himp hc
      rw [hblood] at this
      exact absurd this (by decide)
    have e1 := hno "pO2" hpO2
    have e2 := hno "pCO2" hpCO2
    have e3 := hno "pH" hpH
    simp [familyContainsB, e1, e2, e3]
  · intro e du ra sel mat rows
    obtain ⟨front, hf⟩ := throughUnitFilter_isOk e du sel mat rows
    unfold preprocess_labs
    simp only [hf]
    cases h2 : checkUnits front.1 with
    | error err =>
      obtain ⟨l, hl⟩ := checkUnits_error_shape h2
      subst hl
      rfl
    | ok u =>
      cases u
      cases h3 : valueStage front.1 with
      | error err =>
        have hvs := valueStage_error_shape h3
        subst hvs
        rfl
      | ok t8 => rfl

/-- C4: in the returned table, every row whose dosage label belongs to
the pO2/pCO2/pH family has the arterial material label `sga`. -/
theorem claim_c4_material_invariant :
    ∀ e du ra sel mat rows res,
      preprocess_labs e du ra sel mat rows = .ok res →
      res.table.all bloodGasOkB = true := by
  intro e du ra sel mat rows res h
  rw [List.all_eq_true]
  intro r hr
  obtain ⟨r2, _, hlab, hmat, hpO2, hpCO2, hpH⟩ := table_bloodgas_provenance h hr
  unfold bloodGasOkB
  by_cases hf : familyContainsB r = true
  · have hsga : r2.material_label = "sga" := by
      unfold familyContainsB at hf
      rw [hlab] at hf
      rcases Bool.or_eq_true_iff.mp hf with hf' | h3
      · rcases Bool.or_eq_true_iff.mp hf' with h1 | h2
        · exact hpO2 h1
        · exact hpCO2 h2
      · exact hpH h3
    have : r.material_label = "sga" := by rw [hmat, hsga]
    simp [this]
  · simp [Bool.not_eq_true] at hf
    simp [hf]

/-- C8: on an all-numeric table, the range phase keeps exactly the rows
whose value lies inclusively within their label's configured range
(labels without a range are untouched) and reports the number of rows it
invalidated; consequently every row of the returned table satisfies its
configured range, and the reported count comes from this phase applied
to an all-numeric table. -/
theorem claim_c8_range_validation :
    (∀ (ra : List (String × ℚ × ℚ)) (rows : List LabRow),
      rows.all (fun r => valueIsNumB r.value) = true →
      (rangeStage ra rows).1 = rows.filter (fun r => inRangeB ra r) ∧
      (rangeStage ra rows).2 = rows.countP (fun r => !inRangeB ra r)) ∧
    (∀ e du ra sel mat rows res,
      preprocess_labs e du ra sel mat rows = .ok res →
      res.table.all (fun r => inRangeB ra r) = true ∧
      ∃ t9, t9.all (fun r => valueIsNumB r.value) = true ∧
        res.table = (rangeStage ra t9).1 ∧ res.nOutOfRange = (rangeStage ra t9).2) := by
  constructor
  · intro ra rows hall
    exact rangeStage_eq_of_allNum hall
  · intro e du ra sel mat rows res h
    obtain ⟨front, h1, h2, t8, h3, htab, hcount, _⟩ := preprocess_ok_elim h
    constructor
    · rw [List.all_eq_true]
      intro r hr
      rw [htab] at hr
      exact rangeStage_mem_inRange hr
    · exact ⟨negativeStage t8, negativeStage_allNum (valueStage_ok_allNum h3),
        htab, hcount⟩

/-- The wide column set of the C9 reshape scenario. -/
def glucoseWideCols : List String :=
  identification_columns ++ ["glucose_value", "glucose_unit"]

/-- C9: reshaping a wide table with columns `glucose_value` and
`glucose_unit` (plus the identification columns) produces exactly one
`glucose`-tagged long row per input row with a present `glucose_value`
(with the field names stripped of the `glucose_` prefix), and no row for
an input row whose value field is missing. -/
theorem claim_c9_wide_reshape :
    (∀ rows : List WRow,
      ((reshapeWide glucoseWideCols rows).filter
        (fun p => p.2 == "glucose")).length =
        rows.countP (fun r => (wlookup r "glucose_value").isSome)) ∧
    (∀ (r : WRow) (v : String), wlookup r "glucose_value" = some v →
      reshapeWide glucoseWideCols [r] =
        [(([("case_admission_id", wlookup r "case_admission_id"),
            ("sample_date", wlookup r "sample_date"),
            ("value", some v), ("unit", wlookup r "glucose_unit")] : WRow),
          "glucose")]) ∧
    (∀ r : WRow, wlookup r "glucose_value" = none →
      reshapeWide glucoseWideCols [r] = []) := by
  have hred : ∀ rows : List WRow, reshapeWide glucoseWideCols rows =
      ((rows.filter (fun r => (wlookup r "glucose_value").isSome)).map
        (fun r => (([("case_admission_id", wlookup r "case_admission_id"),
                     ("sample_date", wlookup r "sample_date"),
                     ("value", wlookup r "glucose_value"),
                     ("unit", wlookup r "glucose_unit")] : WRow), "glucose"))) ++ [] :=
    fun rows => rfl
  refine ⟨?_, ?_, ?_⟩
  · intro rows
    rw [hred rows, List.append_nil]
    simp [List.filter_map, Function.comp, List.countP_eq_length_filter]
  · intro r v h
    rw [hred [r], List.append_nil]
    simp [List.filter_cons, h]
  · intro r h
    rw [hred [r], List.append_nil]
    simp [List.filter_cons, h]

/-- C10: the reported per-variable median observation count is the
median over cases of the per-(case, label) row counts of the final
table; on a clean table holding two rows of a variable for case `A` and
one row for case `B` (`A ≠ B`), the reported median for that variable is
`3/2 = 1.5`. -/
theorem claim_c10_median_counts :
    (∀ e du ra sel mat rows res,
      preprocess_labs e du ra sel mat rows = .ok res →
      res.medianObs = medianObsPerCase res.table) ∧
    (∀ (A B v : String) (r1 r2 r3 : LabRow), A ≠ B →
      r1.case_admission_id = A → r1.dosage_label = v →
      r2.case_admission_id = A → r2.dosage_label = v →
      r3.case_admission_id = B → r3.dosage_label = v →
      medianObsPerCase [r1, r2, r3] = [(v, 3 / 2)]) := by
  constructor
  · intro e du ra sel mat rows res h
    obtain ⟨front, h1, h2, t8, h3, htab, _, hmed⟩ := preprocess_ok_elim h
    exact hmed
  · intro A B v r1 r2 r3 hAB h1c h1l h2c h2l h3c h3l
    have hd : ([(A, v), (A, v), (B, v)] : List (String × String)).dedup =
        [(A, v), (B, v)] := by
      rw [List.dedup_cons_of_mem (by simp), List.dedup_cons_of_not_mem (by simp [hAB]),
        List.dedup_cons_of_not_mem (by simp), List.dedup_nil]
    have hkeys : ([r1, r2, r3].map
        (fun r => (r.case_admission_id, r.dosage_label))) = [(A, v), (A, v), (B, v)] := by
      simp [h1c, h1l, h2c, h2l, h3c, h3l]
    have hcA : List.countP
        (fun r => ((r.case_admission_id, r.dosage_label) == ((A, v) : String × String)))
        [r1, r2, r3] = 2 := by
      simp [List.countP_cons, h1c, h1l, h2c, h2l, h3c, h3l, Ne.symm hAB]
    have hcB : List.countP
        (fun r => ((r.case_admission_id, r.dosage_label) == ((B, v) : String × String)))
        [r1, r2, r3] = 1 := by
      simp [List.countP_cons, h1c, h1l, h2c, h2l, h3c, h3l, hAB]
    unfold medianObsPerCase groupCounts
    rw [hkeys, hd]
    simp only [List.map_cons, List.map_nil, hcA, hcB]
    rw [show ([v, v] : List String).dedup = [v] by
      rw [List.dedup_cons_of_mem (by simp), List.dedup_cons_of_not_mem (by simp),
        List.dedup_nil]]
    simp only [List.map_cons, List.map_nil, List.filter_cons, List.filter_nil,
      beq_self_eq_true, if_true]
    norm_num [medianQ, sortQ, insertSorted]

/-- A small concrete input table: two `albumine` rows for one case and
one for another, mirroring the repository's regression test. -/
def sampleRowsA : List LabRow :=
  [⟨"1_0001", "d1", "albumine", "sga", "g/l", .str "10"⟩,
   ⟨"1_0001", "d1", "albumine", "sga", "g/l", .str "20"⟩,
   ⟨"2_9999", "d1", "albumine", "sga", "g/l", .str "30"⟩]

/-- The successful pipeline result on `sampleRowsA`. -/
def sampleResultA : PreprocessResult :=
  match preprocess_labs [] [("albumine", ["g/l"])] [("albumine", 0, 100)] ["albumine"]
      ["any_blood"] sampleRowsA with
  | .ok r => r
  | .error _ => ⟨[], [], [], [], 0, []⟩

/-- A concrete input whose label `na` keeps two distinct units. -/
def sampleRowsB : List LabRow :=
  [⟨"1_0001", "d", "na", "sga", "mmol/l", .str "140"⟩,
   ⟨"1_0001", "d", "na", "sga", "mol/l", .str "1"⟩]

/-- The state of `sampleRowsB` after the unit-filter phase. -/
def sampleFrontB : List LabRow × List String × List String × List String :=
  match throughUnitFilter [] [] ["na"] ["any_blood"] sampleRowsB with
  | .ok f => f
  | .error _ => ([], [], [], [])

theorem claim_c1_unit_invariant_witness :
    unitInvariantB sampleResultA.table = true ∧
    (∃ l, preprocess_labs [] [] [] ["na"] ["any_blood"] sampleRowsB =
        .error (.multipleUnits l (distinctUnitsFor sampleFrontB.1 l)) ∧
      1 < (distinctUnitsFor sampleFrontB.1 l).length) :=
  ⟨claim_c1_unit_invariant.1 [] [("albumine", ["g/l"])] [("albumine", 0, 100)]
      ["albumine"] ["any_blood"] sampleRowsA sampleResultA rfl,
   claim_c1_unit_invariant.2 [] [] [] ["na"] ["any_blood"] sampleRowsB sampleFrontB rfl
      ⟨"na", by decide, by decide⟩⟩

theorem claim_c3_bloodgas_rows_all_dropped_witness :
    noBloodGasB sampleResultA.table = true :=
  claim_c3_bloodgas_rows_all_dropped.1 [] [("albumine", ["g/l"])]
    [("albumine", 0, 100)] ["albumine"] sampleRowsA sampleResultA rfl

theorem claim_c4_material_invariant_witness :
    sampleResultA.table.all bloodGasOkB = true :=
  claim_c4_material_invariant [] [("albumine", ["g/l"])] [("albumine", 0, 100)]
    ["albumine"] ["any_blood"] sampleRowsA sampleResultA rfl

theorem claim_c5_censored_values_witness :
    correctValue "x" (.str "y") = .str (removeApostrophes "y") :=
  claim_c5_censored_values.2.2.2.2.2 "x" "y" (by decide)

/-- A row whose value is unparseable free text. -/
def sampleBadRow : LabRow :=
  ⟨"1_0001", "d", "lbl", "any_blood", "u", .str "abc"⟩

theorem claim_c6_nonnumeric_fatal_witness :
    valueStage [sampleBadRow] =
      .error (.remainingNonNumerical (badValuesOf [sampleBadRow])) :=
  claim_c6_nonnumeric_fatal.2.1 [sampleBadRow] (by decide)

/-- Alternate-source rows: one uninterpretable text row, one numeric. -/
def sampleMimicRows : List MimicRow :=
  [⟨"lbl", .str "NEG", none⟩, ⟨"lbl", .str "12", some 12⟩]

theorem claim_c7_mimic_text_nonfatal_witness :
    applyPatterns ⟨"lbl", .str "NEG", none⟩ = .ok ⟨"lbl", .str "NEG", none⟩ ∧
    mimicConvertValues sampleMimicRows =
      .ok (sampleMimicRows.filter (fun r => !noEstimateB r),
           sampleMimicRows.countP noEstimateB) :=
  ⟨claim_c7_mimic_text_nonfatal.1 ⟨"lbl", .str "NEG", none⟩ (by decide),
   claim_c7_mimic_text_nonfatal.2 sampleMimicRows (by decide)⟩

/-- Two all-numeric rows, one inside and one outside the configured
range. -/
def sampleNumRows : List LabRow :=
  [⟨"1_0001", "d", "albumine", "any_blood", "g/l", .num 10⟩,
   ⟨"1_0001", "d", "albumine", "any_blood", "g/l", .num 500⟩]

theorem claim_c8_range_validation_witness :
    ((rangeStage [("albumine", 0, 100)] sampleNumRows).1 =
        sampleNumRows.filter (fun r => inRangeB [("albumine", 0, 100)] r) ∧
      (rangeStage [("albumine", 0, 100)] sampleNumRows).2 =
        sampleNumRows.countP (fun r => !inRangeB [("albumine", 0, 100)] r)) ∧
    (sampleResultA.table.all (fun r => inRangeB [("albumine", 0, 100)] r) = true ∧
      ∃ t9, t9.all (fun r => valueIsNumB r.value) = true ∧
        sampleResultA.table = (rangeStage [("albumine", 0, 100)] t9).1 ∧
        sampleResultA.nOutOfRange = (rangeStage [("albumine", 0, 100)] t9).2) :=
  ⟨claim_c8_range_validation.1 [("albumine", 0, 100)] sampleNumRows (by decide),
   claim_c8_range_validation.2 [] [("albumine", ["g/l"])] [("albumine", 0, 100)]
      ["albumine"] ["any_blood"] sampleRowsA sampleResultA rfl⟩

/-- A wide row with a present glucose value. -/
def sampleWideRow : WRow :=
  [("case_admission_id", some "1"), ("sample_date", some "d"),
   ("glucose_value", some "5"), ("glucose_unit", some "mmol/l")]

/-- A wide row with a missing glucose value. -/
def sampleWideRowMissing : WRow :=
  [("case_admission_id", some "2"), ("sample_date", some "d"),
   ("glucose_value", none), ("glucose_unit", some "mmol/l")]

theorem claim_c9_wide_reshape_witness :
    reshapeWide glucoseWideCols [sampleWideRow] =
      [(([("case_admission_id", wlookup sampleWideRow "case_admission_id"),
          ("sample_date", wlookup sampleWideRow "sample_date"),
          ("value", some "5"), ("unit", wlookup sampleWideRow "glucose_unit")] : WRow),
        "glucose")] ∧
    reshapeWide glucoseWideCols [sampleWideRowMissing] = [] :=
  ⟨claim_c9_wide_reshape.2.1 sampleWideRow "5" rfl,
   claim_c9_wide_reshape.2.2 sampleWideRowMissing rfl⟩

/-- A clean-table row with the given case and label. -/
def obsRow (c l : String) : LabRow :=
  ⟨c, "d", l, "any_blood", "u", .num 1⟩

theorem claim_c10_median_counts_witness :
    sampleResultA.medianObs = medianObsPerCase sampleResultA.table ∧
    medianObsPerCase [obsRow "a" "x", obsRow "a" "x", obsRow "b" "x"] =
      [("x", 3 / 2)] :=
  ⟨claim_c10_median_counts.1 [] [("albumine", ["g/l"])] [("albumine", 0, 100)]
      ["albumine"] ["any_blood"] sampleRowsA sampleResultA rfl,
   claim_c10_median_counts.2 "a" "b" "x" (obsRow "a" "x") (obsRow "a" "x")
      (obsRow "b" "x") (by decide) rfl rfl rfl rfl rfl rfl⟩

end Collaterals
